import Mathlib

/-!
Verification of the behavioral-analysis pipeline (trial-table builder,
reaction-time / outcome deriver, lick-file loader) from the
`behav_analysis` Python package, as a shallow embedding in Lean 4.

Numeric conventions of the embedding:
  * machine floats become `Rat`; a value that may be NaN / pd.NA / null is
    an `Option Rat` with `none` standing for the non-finite case
    (`np.isfinite` filtering becomes `filterMap id` plus range filters);
  * per-trial computations are modelled as pure functions of one trial's
    inputs, mirroring the per-row loops of the source;
  * element ids (`StimElem`) are integers; the reserved noise id is 10.
-/

namespace Behav

/-- One stimulus event row of the stimuli table, restricted to one trial:
`StimElem` (element id) and `Ampl` (amplitude, `none` when the cell is not
numeric / NaN). -/
structure StimEvent where
  elem : Int
  ampl : Option Rat
deriving Repr, DecidableEq

/-- `SE_noise` as computed by both builder variants
(`build_trial_table.build_trial_data` and
`build_trial_table2.build_trial_data`): the amplitude of the first event of
the trial whose element id is 10 and whose amplitude is non-null
(`s.dropna().iloc[0]` in the simple variant; `dropna` + `drop_duplicates`
keep-first in the filtered variant); null when there is none. -/
def SE_noise (events : List StimEvent) : Option Rat :=
  (events.filterMap (fun e => if e.elem = 10 then e.ampl else none)).head?

/-- `SE_strength` of the simple builder variant
(`build_trial_table.build_trial_data`): for a trial with at least one
stimulus event, `len(g) * g["_AmplNum"].mean(skipna=True)` over ALL events
of the trial (the noise event included); `none` when the trial has no
events (no group, so the row gets `pd.NA`) or all amplitudes are
non-numeric (the mean is NaN). -/
def SE_strength_v1 (events : List StimEvent) : Option Rat :=
  if events.isEmpty then none
  else
    let amps := events.filterMap (fun e => e.ampl)
    if amps.isEmpty then none
    else some ((events.length : Rat) * (amps.sum / (amps.length : Rat)))

/-- `SE_strength` of the filtered builder variant
(`build_trial_table2.build_trial_data`): noise events (`StimElem == 10`)
are removed first, then `count * mean` over the remaining genuine events,
with `fillna(0.0)` and a `0.0` default for trials with no genuine events. -/
def SE_strength_v2 (events : List StimEvent) : Rat :=
  let g := events.filter (fun e => e.elem ≠ 10)
  let amps := g.filterMap (fun e => e.ampl)
  if amps.isEmpty then 0
  else (g.length : Rat) * (amps.sum / (amps.length : Rat))

/-- The stimulus-presence test used everywhere downstream
(`np.isfinite(se) & (se > 0)` in `add_gng_outcomes` and
`add_stim_isi_metrics`): true only for a finite, strictly positive
strength. -/
def stimPresent (strength : Option Rat) : Bool :=
  match strength with
  | some s => decide (0 < s)
  | none => false

/-- The stimulus-absence test of `add_gng_outcomes`
(`np.isfinite(se) & (se == 0)`). -/
def stimAbsent (strength : Option Rat) : Bool :=
  match strength with
  | some s => decide (s = 0)
  | none => false

/-- `Stim_N` per trial from `add_stim_isi_metrics`: 0 unless the trial is a
stimulus trial (finite strength > 0); for a stimulus trial, the number of
distinct valid onset times (finite, inside `[0, max_trial_ms]`), which is
also 0 when the onset list is empty. -/
def stimN (maxTrialMs : Rat) (strength : Option Rat)
    (times : List (Option Rat)) : Nat :=
  if stimPresent strength then
    ((times.filterMap id).filter
      (fun x => decide (0 ≤ x) && decide (x ≤ maxTrialMs))).dedup.length
  else 0

/-- `np.min` over a list of rationals: `none` on the empty list, otherwise
the minimum element. -/
def npMin : List Rat → Option Rat
  | [] => none
  | x :: xs =>
    match npMin xs with
    | none => some x
    | some m => some (min x m)

/-- Configuration of `add_reaction_time_columns` that the per-trial logic
depends on. -/
structure RTParams where
  earlyLickCutoffMs : Option Rat
  maxAbsLick : Rat
  maxTrialMs : Rat
  lickTimesAreAbsolute : Bool
deriving Repr, DecidableEq

/-- The default parameter values of `add_reaction_time_columns`. -/
def defaultRTParams : RTParams :=
  { earlyLickCutoffMs := some 500
    maxAbsLick := 1100000000
    maxTrialMs := 20000
    lickTimesAreAbsolute := true }

/-- The per-trial inputs of `add_reaction_time_columns`: the stimulus onset
list (`SE_Time_ms`), the trial start timestamp (`TrStartTime`, `none` when
not numeric), and the lick list (`LickTimes`). List entries are `none`
when non-finite. -/
structure RTRow where
  seTimes : List (Option Rat)
  trStart : Option Rat
  lickTimes : List (Option Rat)
deriving Repr, DecidableEq

/-- `FirstStim_ms` of one trial: minimum of the finite stimulus onsets
inside `[0, max_trial_ms]`, `none` when no onset survives the filtering. -/
def firstStimMs (maxTrialMs : Rat) (seTimes : List (Option Rat)) : Option Rat :=
  npMin ((seTimes.filterMap id).filter
    (fun x => decide (0 ≤ x) && decide (x ≤ maxTrialMs)))

/-- The validated trial-relative lick times of one trial (the array `rel`
of the source loop): finite raw values that are strictly positive and
below the absolute ceiling, converted to trial-relative time when the
times are absolute (empty when the trial start is not finite in that
mode), then restricted to `[0, max_trial_ms]`. -/
def validLicks (p : RTParams) (trStart : Option Rat)
    (lickTimes : List (Option Rat)) : List Rat :=
  let arr := (lickTimes.filterMap id).filter
    (fun x => decide (0 < x) && decide (x < p.maxAbsLick))
  let rel : List Rat :=
    if p.lickTimesAreAbsolute then
      match trStart with
      | none => []
      | some s => arr.map (fun x => x - s)
    else arr
  rel.filter (fun x => decide (0 ≤ x) && decide (x ≤ p.maxTrialMs))

/-- The early-lick filter of `add_reaction_time_columns`: when the first
stimulus time is finite and the cutoff is defined and strictly positive,
licks at time `t ≤ firstStim − cutoff` are removed and the flag records
whether any lick was removed; otherwise nothing is filtered and the flag
is false. Returns `(EarlyLicksRemoved, surviving licks)`. -/
def earlyLickFilter (firstStim : Option Rat) (cutoff : Option Rat)
    (rel : List Rat) : Bool × List Rat :=
  match firstStim, cutoff with
  | some stim, some c =>
    if 0 < c then
      let cutoffTime := stim - c
      (rel.any (fun t => decide (t ≤ cutoffTime)),
       rel.filter (fun t => !decide (t ≤ cutoffTime)))
    else (false, rel)
  | _, _ => (false, rel)

/-- The columns `add_reaction_time_columns` adds for one trial. -/
structure RTOut where
  firstStim : Option Rat
  firstLickAny : Option Rat
  earlyLicksRemoved : Bool
  firstLick : Option Rat
  rt : Option Rat
deriving Repr, DecidableEq

/-- Per-trial body of `add_reaction_time_columns`: `FirstStim_ms`,
`FirstLickAny_ms` (minimum of the validated licks), the early-lick filter,
`FirstLick_ms` (minimum of the surviving licks), and
`RT_ms = FirstLick_ms − FirstStim_ms` (NaN whenever either operand is
non-finite, via `rt[~np.isfinite(rt)] = np.nan`). -/
def add_reaction_time_columns (p : RTParams) (row : RTRow) : RTOut :=
  let fs := firstStimMs p.maxTrialMs row.seTimes
  let rel := validLicks p row.trStart row.lickTimes
  let filtered := earlyLickFilter fs p.earlyLickCutoffMs rel
  let fl := npMin filtered.2
  { firstStim := fs
    firstLickAny := npMin rel
    earlyLicksRemoved := filtered.1
    firstLick := fl
    rt :=
      match fl, fs with
      | some a, some b => some (a - b)
      | _, _ => none }

/-- The six Go/No-Go outcome labels of `add_gng_outcomes`. -/
inductive GngLabel where
  | Hit
  | Miss
  | FalseAlarm
  | CorrectRejection
  | AutoReward
  | PrematureLick
deriving Repr, DecidableEq

/-- The numeric code map of `add_gng_outcomes`
(Hit=1, Miss=2, FA=3, CR=4, AutoReward=5, PrematureLick=6). -/
def code_map : GngLabel → Rat
  | .Hit => 1
  | .Miss => 2
  | .FalseAlarm => 3
  | .CorrectRejection => 4
  | .AutoReward => 5
  | .PrematureLick => 6

/-- Configuration of `add_gng_outcomes` that the per-trial logic depends
on. -/
structure GngParams where
  maxAbsLick : Rat
  maxTrialMs : Rat
  lickTimesAreAbsolute : Bool
deriving Repr, DecidableEq

/-- The per-trial inputs of `add_gng_outcomes`: original outcome code,
trial start, the two absolute response-window bound timestamps, the
stimulus strength, and the lick list. Scalars are `none` when not
numeric / NaN. -/
structure GngRow where
  origOutcome : Option Rat
  trStart : Option Rat
  rwStart : Option Rat
  rwEnd : Option Rat
  seStrength : Option Rat
  lickTimes : List (Option Rat)
deriving Repr, DecidableEq

/-- The response-window bounds `(RW_lo_ms, RW_hi_ms)`: both absolute
bounds are made trial-relative by subtracting the trial start (`none`,
i.e. NaN, propagates through the subtraction and through
`np.minimum`/`np.maximum`), the low/high are the min/max of the two, and
finite values are clipped to `[0, max_trial_ms]`. -/
def rwBounds (maxTrialMs : Rat) (trStart rwStart rwEnd : Option Rat) :
    Option Rat × Option Rat :=
  match trStart, rwStart, rwEnd with
  | some t0, some s, some e =>
    let r0 := s - t0
    let r1 := e - t0
    (some (min (max (min r0 r1) 0) maxTrialMs),
     some (min (max (max r0 r1) 0) maxTrialMs))
  | _, _, _ => (none, none)

/-- `LickInRW` for one trial: false when either response-window bound is
NaN, or (in absolute mode) the trial start is NaN; otherwise true iff some
validated trial-relative lick falls inside `[RW_lo_ms, RW_hi_ms]`
inclusive. The lick validation is the same raw-value and
`[0, max_trial_ms]` filtering as in `add_reaction_time_columns`, on the
full (early-lick-unfiltered) list. -/
def lickInRW (p : GngParams) (trStart : Option Rat)
    (rwLo rwHi : Option Rat) (lickTimes : List (Option Rat)) : Bool :=
  match rwLo, rwHi with
  | some lo, some hi =>
    if p.lickTimesAreAbsolute && trStart.isNone then false
    else
      let rel := validLicks
        { earlyLickCutoffMs := none
          maxAbsLick := p.maxAbsLick
          maxTrialMs := p.maxTrialMs
          lickTimesAreAbsolute := p.lickTimesAreAbsolute }
        trStart lickTimes
      rel.any (fun t => decide (lo ≤ t) && decide (t ≤ hi))
  | _, _ => false

/-- The outcome assignment of `add_gng_outcomes`: the special original
codes 5/6 are preserved first; the remaining trials are labelled only when
the response window is valid and the trial is stimulus-classifiable
(strength finite and > 0, or finite and = 0); everything else stays
unlabelled. -/
def gngOutcomeLabel (origOutcome : Option Rat) (rwValid : Bool)
    (stimT nostimT lick : Bool) : Option GngLabel :=
  if origOutcome = some 5 then some .AutoReward
  else if origOutcome = some 6 then some .PrematureLick
  else if rwValid && (stimT || nostimT) then
    if stimT then (if lick then some .Hit else some .Miss)
    else (if lick then some .FalseAlarm else some .CorrectRejection)
  else none

/-- The columns `add_gng_outcomes` adds for one trial. -/
structure GngOut where
  rwLo : Option Rat
  rwHi : Option Rat
  lickInRW : Bool
  label : Option GngLabel
  code : Option Rat
deriving Repr, DecidableEq

/-- Per-trial body of `add_gng_outcomes`: response-window bounds,
`LickInRW`, `Outcome_GNG` and its numeric `Outcome_GNG_Code` (NaN when no
label applies). -/
def add_gng_outcomes (p : GngParams) (row : GngRow) : GngOut :=
  let b := rwBounds p.maxTrialMs row.trStart row.rwStart row.rwEnd
  let inRW := lickInRW p row.trStart b.1 b.2 row.lickTimes
  let lbl := gngOutcomeLabel row.origOutcome (b.1.isSome && b.2.isSome)
    (stimPresent row.seStrength) (stimAbsent row.seStrength) inRW
  { rwLo := b.1
    rwHi := b.2
    lickInRW := inRW
    label := lbl
    code := lbl.map code_map }

/-- The evaluable mask of the summary in `add_gng_outcomes`
(`mask_eval`): special original codes 5/6, or a valid response window
together with a stimulus-classifiable trial. -/
def gngEvaluable (p : GngParams) (row : GngRow) : Bool :=
  let b := rwBounds p.maxTrialMs row.trStart row.rwStart row.rwEnd
  (row.origOutcome = some 5 || row.origOutcome = some 6) ||
    ((b.1.isSome && b.2.isSome) &&
      (stimPresent row.seStrength || stimAbsent row.seStrength))

/-- The fixed label order of the summary table. -/
def gngOrder : List GngLabel :=
  [.Hit, .Miss, .FalseAlarm, .CorrectRejection, .AutoReward, .PrematureLick]

/-- Number of evaluable trials (`mask_eval.sum()`). -/
def gngEvalCount (p : GngParams) (rows : List GngRow) : Nat :=
  rows.countP (fun r => gngEvaluable p r)

/-- Summary count for one label: the number of evaluable trials carrying
that label (`value_counts` over the evaluable rows, reindexed over the
fixed order with `fill_value=0`). -/
def gngSummaryCount (p : GngParams) (rows : List GngRow)
    (l : GngLabel) : Nat :=
  rows.countP (fun r =>
    gngEvaluable p r && decide ((add_gng_outcomes p r).label = some l))

/-- Summary proportion for one label: its count divided by
`max(evaluable count, 1)`. -/
def gngSummaryProp (p : GngParams) (rows : List GngRow)
    (l : GngLabel) : Rat :=
  (gngSummaryCount p rows l : Rat) / (max (gngEvalCount p rows) 1 : Nat)

/-- The summary table of `add_gng_outcomes`: one `(label, count,
proportion)` row per label in the fixed order. -/
def gngSummary (p : GngParams) (rows : List GngRow) :
    List (GngLabel × Nat × Rat) :=
  gngOrder.map (fun l =>
    (l, gngSummaryCount p rows l, gngSummaryProp p rows l))

/-- Error taxonomy of the loaders: a missing session file versus malformed
file content (`FileNotFoundError` versus `ValueError` in
`load_lick_for_session`). -/
inductive LoadError where
  | missingFile
  | malformedContent
deriving Repr, DecidableEq

/-- One parsed numeric row of the lick file after
`to_numeric(errors="coerce").fillna(0)`: the leading trial-number cell and
the remaining value cells. -/
structure LickFileRow where
  trial : Int
  vals : List Rat
deriving Repr, DecidableEq

/-- Per-trial event extraction of `load_lick_for_session`: the value cells
of the time row and the side row are masked by `time > 0`
(`mask = trow > 0; trow[mask]; srow[mask]`), keeping sides aligned to the
kept times. Returns `(LickTimes, LickSides)`. -/
def lickRowEvents (trow srow : List Rat) : List Rat × List Rat :=
  let kept := (trow.zip srow).filter (fun q => decide (0 < q.1))
  (kept.map Prod.fst, kept.map Prod.snd)

/-- One trial-level output row of `load_lick_for_session`. -/
structure LickTrialRow where
  trial : Int
  lickTimes : List Rat
  lickSides : List Rat
deriving Repr, DecidableEq

/-- Content processing of `load_lick_for_session` on the parsed numeric
table: fail when the total row count is odd (the file must hold two
stacked blocks of equal height) or when the trial-number columns of the
two blocks differ anywhere; otherwise produce one trial-level row per
time/side row pair. -/
def load_lick_for_session (rows : List LickFileRow) :
    Except LoadError (List LickTrialRow) :=
  let n := rows.length
  if n % 2 ≠ 0 then .error .malformedContent
  else
    let half := n / 2
    let timesBlk := rows.take half
    let sidesBlk := rows.drop half
    if timesBlk.map (fun r => r.trial) ≠ sidesBlk.map (fun r => r.trial) then
      .error .malformedContent
    else
      .ok ((timesBlk.zip sidesBlk).map (fun q =>
        let ev := lickRowEvents q.1.vals q.2.vals
        { trial := q.1.trial, lickTimes := ev.1, lickSides := ev.2 }))

/-- The stimulus-event list of Scenario 3 of the spec:
`[{elem:10, ampl:0.5}, {elem:3, ampl:1.0}, {elem:3, ampl:2.0}]`. -/
def scen3Events : List StimEvent :=
  [⟨10, some (1/2)⟩, ⟨3, some 1⟩, ⟨3, some 2⟩]

/-- Parameters of Scenario 1 of the spec: trial-relative lick times,
early-lick cutoff 500 ms, default ceilings. -/
def scen1Params : RTParams :=
  { earlyLickCutoffMs := some 500
    maxAbsLick := 1100000000
    maxTrialMs := 20000
    lickTimesAreAbsolute := false }

/-- The trial of Scenario 1 of the spec: stimulus onsets `[10, 20, 30]` ms
and trial-relative licks `[5, 25]`. -/
def scen1Row : RTRow :=
  { seTimes := [some 10, some 20, some 30]
    trStart := none
    lickTimes := [some 5, some 25] }

/-- Default-like parameters of `add_gng_outcomes` used for concrete
instantiations. -/
def exGngParams : GngParams :=
  { maxAbsLick := 1100000000
    maxTrialMs := 20000
    lickTimesAreAbsolute := true }

/-- A concrete trial whose original outcome code is the special value 5
(AutoReward). -/
def exGngRowAuto : GngRow :=
  { origOutcome := some 5
    trStart := some 0
    rwStart := some 100
    rwEnd := some 600
    seStrength := some 2
    lickTimes := [some 150] }

/-- A concrete trial with a null (NaN) stimulus strength. -/
def exGngRowNoStrength : GngRow :=
  { origOutcome := some 1
    trStart := some 0
    rwStart := some 100
    rwEnd := some 600
    seStrength := none
    lickTimes := [some 150] }

/-- A lick-file content with 11 rows (odd), as in Scenario 4 of the
spec. -/
def exLickRowsOdd : List LickFileRow :=
  (List.range 11).map (fun i => ⟨(i : Int), [1, 0]⟩)

/-- A well-formed lick-file content: two stacked 2-row blocks with
matching trial columns. -/
def exLickRowsGood : List LickFileRow :=
  [⟨1, [5, 0, 7, 0]⟩, ⟨2, [3, 0, 0, 0]⟩, ⟨1, [1, 1, 2, 0]⟩, ⟨2, [2, 0, 0, 0]⟩]

/-! ## Helper lemmas -/

theorem length_filterMap_of_isSome {α β : Type} (f : α → Option β) :
    ∀ l : List α, (∀ a ∈ l, (f a).isSome = true) →
      (l.filterMap f).length = l.length := by
  intro l
  induction l with
  | nil => intro _; rfl
  | cons a t ih =>
    intro h
    obtain ⟨b, hb⟩ := Option.isSome_iff_exists.mp (h a (List.mem_cons_self a t))
    rw [List.filterMap_cons, hb]
    simp only [List.length_cons]
    rw [ih (fun x hx => h x (List.mem_cons_of_mem a hx))]

theorem add_gng_outcomes_label_eq (p : GngParams) (row : GngRow) :
    (add_gng_outcomes p row).label =
      gngOutcomeLabel row.origOutcome
        ((rwBounds p.maxTrialMs row.trStart row.rwStart row.rwEnd).1.isSome &&
          (rwBounds p.maxTrialMs row.trStart row.rwStart row.rwEnd).2.isSome)
        (stimPresent row.seStrength) (stimAbsent row.seStrength)
        ((add_gng_outcomes p row).lickInRW) := rfl

theorem add_gng_outcomes_code_eq (p : GngParams) (row : GngRow) :
    (add_gng_outcomes p row).code =
      ((add_gng_outcomes p row).label).map code_map := rfl

theorem gngOutcomeLabel_no_stim_label (o : Option Rat) (rw ns lk : Bool) :
    gngOutcomeLabel o rw false ns lk ≠ some GngLabel.Hit ∧
    gngOutcomeLabel o rw false ns lk ≠ some GngLabel.Miss := by
  unfold gngOutcomeLabel
  split_ifs <;> simp_all

/-! ## C1: SE_strength counts only genuine (non-noise) events -/

/-- **C1, counterexample.** On the event list of Scenario 3, the simple
builder variant (`build_trial_table.build_trial_data`) returns
`SE_strength = 3.5`, not the claimed `3.0`: it includes the noise event
(`elem = 10`) in both the event count and the amplitude mean. -/
theorem C1_counterexample :
    SE_strength_v1 scen3Events = some (7/2) ∧
    SE_strength_v1 scen3Events ≠ some 3 := by
  have hv : SE_strength_v1 scen3Events = some (7/2) := by
    norm_num [SE_strength_v1, scen3Events, List.filterMap_cons]
  refine ⟨hv, ?_⟩
  rw [hv]
  intro h
  have h2 : (7/2 : Rat) = 3 := Option.some.inj h
  norm_num at h2

/-- **C1, amended.** For the filtered builder variant
(`build_trial_table2.build_trial_data`): for every trial whose genuine
(non-noise) events all carry a defined amplitude, `SE_strength` equals
(number of genuine events) × (arithmetic mean of their amplitudes) when
there is at least one genuine event, and `0` otherwise; on the Scenario 3
list, `SE_noise = 0.5` and `SE_strength = 3.0`.  The simple builder
variant instead includes the noise event (see the counterexample). -/
theorem C1_strength_excludes_noise (events : List StimEvent)
    (h : ∀ e ∈ events, e.elem ≠ 10 → (e.ampl).isSome = true) :
    (events.filter (fun e => e.elem ≠ 10) ≠ [] →
      SE_strength_v2 events =
        ((events.filter (fun e => e.elem ≠ 10)).length : Rat) *
          (((events.filter (fun e => e.elem ≠ 10)).filterMap
              (fun e => e.ampl)).sum /
            ((events.filter (fun e => e.elem ≠ 10)).length : Rat))) ∧
    (events.filter (fun e => e.elem ≠ 10) = [] →
      SE_strength_v2 events = 0) ∧
    SE_noise scen3Events = some (1/2) ∧
    SE_strength_v2 scen3Events = 3 := by
  have hlen : ((events.filter (fun e => e.elem ≠ 10)).filterMap
      (fun e => e.ampl)).length =
      (events.filter (fun e => e.elem ≠ 10)).length := by
    apply length_filterMap_of_isSome
    intro e he
    have hm := List.mem_filter.mp he
    exact h e hm.1 (by simpa using hm.2)
  refine ⟨?_, ?_,
    by norm_num [SE_noise, scen3Events, List.filterMap_cons],
    by norm_num [SE_strength_v2, scen3Events, List.filterMap_cons]⟩
  · intro hg
    have hne : ¬((events.filter (fun e => e.elem ≠ 10)).filterMap
        (fun e => e.ampl)).isEmpty = true := by
      rw [List.isEmpty_iff]
      intro h0
      rw [h0] at hlen
      exact hg (List.length_eq_zero.mp hlen.symm)
    simp only [SE_strength_v2]
    rw [if_neg hne, hlen]
  · intro hg
    simp only [SE_strength_v2]
    rw [hg]
    simp

/-- **C1, witness for the amended theorem.** The amended theorem applied
to the Scenario 3 list. -/
theorem C1_witness :
    SE_strength_v2 scen3Events =
      ((scen3Events.filter (fun e => e.elem ≠ 10)).length : Rat) *
        (((scen3Events.filter (fun e => e.elem ≠ 10)).filterMap
            (fun e => e.ampl)).sum /
          ((scen3Events.filter (fun e => e.elem ≠ 10)).length : Rat)) :=
  (C1_strength_excludes_noise scen3Events (by decide)).1 (by decide)

/-! ## C4: trials with no stimulus events -/

/-- **C4, counterexample.** In the simple builder variant
(`build_trial_table.build_trial_data`), a trial with an empty stimulus
event list gets `SE_strength = pd.NA` (null), not `0` as the claim
states. -/
theorem C4_counterexample :
    SE_strength_v1 [] = none ∧ SE_strength_v1 [] ≠ some 0 := by
  constructor
  · rfl
  · decide

/-- **C4, amended.** For a trial with an empty stimulus event list, the
filtered builder variant yields `SE_strength = 0` while the simple variant
yields null; `Stim_N = 0` in every case; and neither the null nor the zero
strength ever classifies the trial as stimulus-present — in particular
`add_gng_outcomes` never labels such a trial `Hit` or `Miss`. -/
theorem C4_empty_stim (maxT : Rat) (s : Option Rat) (p : GngParams)
    (row : GngRow) :
    SE_strength_v2 [] = 0 ∧
    SE_strength_v1 [] = none ∧
    stimN maxT s [] = 0 ∧
    stimPresent (SE_strength_v1 []) = false ∧
    stimPresent (some (SE_strength_v2 [])) = false ∧
    (row.seStrength = none ∨ row.seStrength = some 0 →
      (add_gng_outcomes p row).label ≠ some GngLabel.Hit ∧
      (add_gng_outcomes p row).label ≠ some GngLabel.Miss) := by
  refine ⟨rfl, rfl, ?_, rfl, rfl, ?_⟩
  · cases hs : stimPresent s <;> simp [stimN, hs]
  · intro hs
    have hfalse : stimPresent row.seStrength = false := by
      rcases hs with h | h <;> simp [stimPresent, h]
    rw [add_gng_outcomes_label_eq, hfalse]
    exact gngOutcomeLabel_no_stim_label _ _ _ _

/-- **C4, witness.** The amended theorem applied to a concrete trial with
a null stimulus strength. -/
theorem C4_witness :
    (add_gng_outcomes exGngParams exGngRowNoStrength).label ≠
      some GngLabel.Hit ∧
    (add_gng_outcomes exGngParams exGngRowNoStrength).label ≠
      some GngLabel.Miss :=
  (C4_empty_stim 0 none exGngParams exGngRowNoStrength).2.2.2.2.2
    (Or.inl rfl)

/-! ## C6: per-row lick event extraction -/

theorem zip_filter_pos_fst (trow : List Rat) :
    ∀ srow : List Rat, trow.length = srow.length →
      ((trow.zip srow).filter (fun q => decide (0 < q.1))).map Prod.fst =
        trow.filter (fun t => decide (0 < t)) := by
  induction trow with
  | nil => intro srow _; rfl
  | cons a t ih =>
    intro srow h
    cases srow with
    | nil => simp at h
    | cons b s =>
      simp only [List.zip_cons_cons, List.filter_cons]
      by_cases ha : 0 < a
      · simp [ha, ih s (by simpa using h)]
      · simp [ha, ih s (by simpa using h)]

/-- **C6, counterexample.** In `load_lick_for_session`, a time row
`[5, 0, 7]` (with side row `[1, 1, 2]`) yields lick times `[5, 7]`: the
value 7, which appears after the first zero, still contributes a lick
event, so the sequences are masked by `time > 0`, not truncated at the
first zero. -/
theorem C6_counterexample :
    (7 : Rat) ∈ (lickRowEvents [5, 0, 7] [1, 1, 2]).1 ∧
    (lickRowEvents [5, 0, 7] [1, 1, 2]).1 ≠ [5] := by
  constructor
  · decide
  · decide

/-- **C6, amended.** The lick time/side rows are filtered pointwise by
`time > 0`: the kept lick times are exactly the strictly positive values
of the row (in order), wherever zeros occur. For a well-formed row —
positive values followed only by zero padding — this coincides with
truncation at the first sentinel zero, which is the case the claim
describes. -/
theorem C6_lick_row_semantics (trow srow : List Rat) :
    (trow.length = srow.length →
      (lickRowEvents trow srow).1 = trow.filter (fun t => decide (0 < t))) ∧
    (∀ tpre tsuf spre ssuf : List Rat,
      trow = tpre ++ tsuf → srow = spre ++ ssuf →
      tpre.length = spre.length → tsuf.length = ssuf.length →
      (∀ t ∈ tpre, 0 < t) → (∀ t ∈ tsuf, t = 0) →
      lickRowEvents trow srow = (tpre, spre)) := by
  constructor
  · intro h
    exact zip_filter_pos_fst trow srow h
  · intro tpre tsuf spre ssuf ht hs hlenp hlens hpos hzero
    subst ht hs
    simp only [lickRowEvents]
    rw [List.zip_append hlenp, List.filter_append]
    have h1 : (tpre.zip spre).filter (fun q => decide (0 < q.1)) =
        tpre.zip spre := by
      rw [List.filter_eq_self]
      intro q hq
      exact decide_eq_true (hpos q.1 (List.of_mem_zip hq).1)
    have h2 : (tsuf.zip ssuf).filter (fun q => decide (0 < q.1)) = [] := by
      rw [List.filter_eq_nil_iff]
      intro q hq
      have := hzero q.1 (List.of_mem_zip hq).1
      simp [this]
    rw [h1, h2, List.append_nil]
    rw [List.map_fst_zip _ _ (le_of_eq hlenp),
      List.map_snd_zip _ _ (ge_of_eq hlenp)]

/-- **C6, witness for the amended theorem.** A well-formed padded row:
times `[5, 3, 0, 0]`, sides `[1, 2, 0, 0]` yield exactly the pre-padding
events. -/
theorem C6_witness :
    lickRowEvents [5, 3, 0, 0] [1, 2, 0, 0] = ([5, 3], [1, 2]) :=
  (C6_lick_row_semantics [5, 3, 0, 0] [1, 2, 0, 0]).2 [5, 3] [0, 0]
    [1, 2] [0, 0] rfl rfl rfl rfl (by decide) (by decide)

/-! ## C7: lick-file load failure modes -/

/-- **C7.** `load_lick_for_session` fails with the malformed-content
error (never the missing-file error) exactly when the total row count is
odd or the two blocks' trial columns differ row-for-row; otherwise it
succeeds and returns one trial row per time/side row pair (half the file
rows). -/
theorem C7_load_lick_failure (rows : List LickFileRow) :
    (rows.length % 2 ≠ 0 →
      load_lick_for_session rows = .error .malformedContent) ∧
    ((rows.take (rows.length / 2)).map (fun r => r.trial) ≠
        (rows.drop (rows.length / 2)).map (fun r => r.trial) →
      load_lick_for_session rows = .error .malformedContent) ∧
    (∀ e, load_lick_for_session rows = .error e →
      e = .malformedContent) ∧
    (rows.length % 2 = 0 →
      (rows.take (rows.length / 2)).map (fun r => r.trial) =
        (rows.drop (rows.length / 2)).map (fun r => r.trial) →
      ∃ out, load_lick_for_session rows = .ok out ∧
        out.length = rows.length / 2) := by
  refine ⟨?_, ?_, ?_, ?_⟩
  · intro hodd
    simp only [load_lick_for_session]
    rw [if_pos hodd]
  · intro hmis
    simp only [load_lick_for_session]
    by_cases h1 : rows.length % 2 ≠ 0
    · rw [if_pos h1]
    · rw [if_neg h1, if_pos hmis]
  · intro e he
    simp only [load_lick_for_session] at he
    by_cases h1 : rows.length % 2 ≠ 0
    · rw [if_pos h1] at he
      exact (Except.error.inj he).symm
    · rw [if_neg h1] at he
      by_cases h2 : (rows.take (rows.length / 2)).map (fun r => r.trial) ≠
          (rows.drop (rows.length / 2)).map (fun r => r.trial)
      · rw [if_pos h2] at he
        exact (Except.error.inj he).symm
      · rw [if_neg h2] at he
        exact Except.noConfusion he
  · intro heven hmatch
    simp only [load_lick_for_session]
    rw [if_neg (by simp [heven]), if_neg (by simp [hmatch])]
    refine ⟨_, rfl, ?_⟩
    simp only [List.length_map, List.length_zip, List.length_take,
      List.length_drop]
    omega

/-- **C7, witness.** The theorem applied to the 11-row (odd) file of
Scenario 4 and to a well-formed 4-row file. -/
theorem C7_witness :
    load_lick_for_session exLickRowsOdd = .error .malformedContent ∧
    ∃ out, load_lick_for_session exLickRowsGood = .ok out ∧
      out.length = exLickRowsGood.length / 2 :=
  ⟨(C7_load_lick_failure exLickRowsOdd).1 (by decide),
   (C7_load_lick_failure exLickRowsGood).2.2.2 (by decide) (by decide)⟩

/-! ## Lemmas about npMin and the early-lick filter -/

theorem npMin_eq_none_iff (l : List Rat) : npMin l = none ↔ l = [] := by
  cases l with
  | nil => simp [npMin]
  | cons a t =>
    simp only [npMin]
    cases npMin t <;> simp

theorem npMin_mem : ∀ {l : List Rat} {m : Rat}, npMin l = some m → m ∈ l := by
  intro l
  induction l with
  | nil => intro m h; exact Option.noConfusion h
  | cons a t ih =>
    intro m h
    simp only [npMin] at h
    cases ht : npMin t with
    | none =>
      rw [ht] at h
      exact (Option.some.inj h) ▸ List.mem_cons_self a t
    | some m0 =>
      rw [ht] at h
      have hm : m = min a m0 := (Option.some.inj h).symm
      rcases min_choice a m0 with hc | hc
      · exact (hm.trans hc) ▸ List.mem_cons_self a t
      · exact List.mem_cons_of_mem a ((hm.trans hc) ▸ ih ht)

theorem npMin_le : ∀ {l : List Rat} {m : Rat}, npMin l = some m →
    ∀ x ∈ l, m ≤ x := by
  intro l
  induction l with
  | nil => intro m _ x hx; exact absurd hx (List.not_mem_nil x)
  | cons a t ih =>
    intro m h x hx
    simp only [npMin] at h
    cases ht : npMin t with
    | none =>
      rw [ht] at h
      have : t = [] := (npMin_eq_none_iff t).mp ht
      subst this
      rcases List.mem_cons.mp hx with hx | hx
      · exact (Option.some.inj h) ▸ hx ▸ le_refl x
      · exact absurd hx (List.not_mem_nil x)
    | some m0 =>
      rw [ht] at h
      have hm : m = min a m0 := (Option.some.inj h).symm
      rcases List.mem_cons.mp hx with hx | hx
      · exact hm ▸ hx ▸ min_le_left a m0
      · exact hm ▸ le_trans (min_le_right a m0) (ih ht x hx)

theorem npMin_isSome_of_mem {l : List Rat} {x : Rat} (hx : x ∈ l) :
    ∃ m, npMin l = some m := by
  cases hl : npMin l with
  | none =>
    rw [npMin_eq_none_iff] at hl
    subst hl
    exact absurd hx (List.not_mem_nil x)
  | some m => exact ⟨m, rfl⟩

theorem earlyLickFilter_subset (fs co : Option Rat) (rel : List Rat) :
    ∀ t ∈ (earlyLickFilter fs co rel).2, t ∈ rel := by
  intro t ht
  cases fs with
  | none => exact ht
  | some stim =>
    cases co with
    | none => exact ht
    | some c =>
      simp only [earlyLickFilter] at ht
      by_cases hc : 0 < c
      · rw [if_pos hc] at ht
        exact (List.mem_filter.mp ht).1
      · rw [if_neg hc] at ht
        exact ht

theorem earlyLickFilter_id_of_no_removal {fs co : Option Rat}
    {rel : List Rat} (h : (earlyLickFilter fs co rel).1 = false) :
    (earlyLickFilter fs co rel).2 = rel := by
  cases fs with
  | none => rfl
  | some stim =>
    cases co with
    | none => rfl
    | some c =>
      simp only [earlyLickFilter] at h ⊢
      by_cases hc : 0 < c
      · rw [if_pos hc] at h ⊢
        simp only [List.any_eq_false] at h
        rw [List.filter_eq_self]
        intro t ht
        simpa using h t ht
      · rw [if_neg hc]

/-! ## C3: the early-lick filter -/

/-- **C3.** When the first stimulus time is defined and the cutoff is
defined and positive, a validated lick at time `t` survives the early-lick
filter iff `FirstStim_ms − cutoff < t` (so it is discarded iff
`t ≤ FirstStim_ms − cutoff`; the lick at exactly the boundary is
discarded and the one 1 ms later retained); `EarlyLicksRemoved` is true
iff some lick was discarded; and nothing is discarded when the first
stimulus is null or the cutoff is null or non-positive.  The last conjunct
ties the filter to the `EarlyLicksRemoved` column of
`add_reaction_time_columns`. -/
theorem C3_early_lick_filter (stim c : Rat) (rel : List Rat) (hc : 0 < c) :
    (∀ t, t ∈ (earlyLickFilter (some stim) (some c) rel).2 ↔
      t ∈ rel ∧ stim - c < t) ∧
    stim - c ∉
      (earlyLickFilter (some stim) (some c) [stim - c, stim - c + 1]).2 ∧
    stim - c + 1 ∈
      (earlyLickFilter (some stim) (some c) [stim - c, stim - c + 1]).2 ∧
    ((earlyLickFilter (some stim) (some c) rel).1 = true ↔
      ∃ t ∈ rel, t ≤ stim - c) ∧
    (∀ co : Option Rat, earlyLickFilter none co rel = (false, rel)) ∧
    (∀ x : Rat, x ≤ 0 →
      earlyLickFilter (some stim) (some x) rel = (false, rel)) ∧
    earlyLickFilter (some stim) none rel = (false, rel) ∧
    (∀ (p : RTParams) (row : RTRow),
      (add_reaction_time_columns p row).earlyLicksRemoved =
        (earlyLickFilter (add_reaction_time_columns p row).firstStim
          p.earlyLickCutoffMs (validLicks p row.trStart row.lickTimes)).1) := by
  refine ⟨?_, ?_, ?_, ?_, ?_, ?_, rfl, fun p row => rfl⟩
  · intro t
    simp only [earlyLickFilter, if_pos hc]
    simp [List.mem_filter, not_le]
  · simp only [earlyLickFilter, if_pos hc]
    simp [List.mem_filter]
  · have h1 : ¬(stim - c + 1 ≤ stim - c) := by linarith
    simp only [earlyLickFilter, if_pos hc]
    simp [List.mem_filter, h1]
  · simp only [earlyLickFilter, if_pos hc]
    simp [List.any_eq_true]
  · intro co
    cases co <;> rfl
  · intro x hx
    simp only [earlyLickFilter]
    rw [if_neg (not_lt.mpr hx)]

/-- **C3, witness.** The filter applied to Scenario 1's licks: with
`FirstStim_ms = 10` and cutoff 500, the lick at 5 ms survives. -/
theorem C3_witness :
    (5 : Rat) ∈ (earlyLickFilter (some 10) (some 500) [5, 25]).2 :=
  ((C3_early_lick_filter 10 500 [5, 25] (by decide)).1 5).mpr
    ⟨by decide, by norm_num⟩

/-! ## C5: RT_ms = FirstLick_ms − FirstStim_ms -/

/-- **C5.** `RT_ms` equals `FirstLick_ms − FirstStim_ms` when both are
defined (and may be negative), and is null when either is null; on
Scenario 1 (`SE_Time_ms = [10, 20, 30]`, trial-relative licks `[5, 25]`,
cutoff 500) `FirstLick_ms = 5` and `RT_ms = −5`. -/
theorem C5_reaction_time (p : RTParams) (row : RTRow) :
    (∀ a b, (add_reaction_time_columns p row).firstLick = some a →
      (add_reaction_time_columns p row).firstStim = some b →
      (add_reaction_time_columns p row).rt = some (a - b)) ∧
    ((add_reaction_time_columns p row).firstLick = none ∨
      (add_reaction_time_columns p row).firstStim = none →
      (add_reaction_time_columns p row).rt = none) ∧
    (add_reaction_time_columns scen1Params scen1Row).firstLick = some 5 ∧
    (add_reaction_time_columns scen1Params scen1Row).rt = some (-5) := by
  have hrt : (add_reaction_time_columns p row).rt =
      (match (add_reaction_time_columns p row).firstLick,
          (add_reaction_time_columns p row).firstStim with
        | some a, some b => some (a - b)
        | _, _ => none) := rfl
  refine ⟨?_, ?_,
    by norm_num [add_reaction_time_columns, firstStimMs, validLicks,
      earlyLickFilter, npMin, scen1Params, scen1Row, List.filterMap_cons,
      List.filter_cons, min_def],
    by norm_num [add_reaction_time_columns, firstStimMs, validLicks,
      earlyLickFilter, npMin, scen1Params, scen1Row, List.filterMap_cons,
      List.filter_cons, min_def]⟩
  · intro a b h1 h2
    rw [hrt, h1, h2]
  · intro h
    rw [hrt]
    rcases hfl : (add_reaction_time_columns p row).firstLick with _ | a <;>
      rcases hfs : (add_reaction_time_columns p row).firstStim with _ | b <;>
      simp_all

/-- **C5, witness.** The theorem applied to Scenario 1:
`RT_ms = 5 − 10 = −5`. -/
theorem C5_witness :
    (add_reaction_time_columns scen1Params scen1Row).rt = some (5 - 10) :=
  (C5_reaction_time scen1Params scen1Row).1 5 10
    (by norm_num [add_reaction_time_columns, firstStimMs, validLicks,
      earlyLickFilter, npMin, scen1Params, scen1Row, List.filterMap_cons,
      List.filter_cons, min_def])
    (by norm_num [add_reaction_time_columns, firstStimMs, validLicks,
      earlyLickFilter, npMin, scen1Params, scen1Row, List.filterMap_cons,
      List.filter_cons, min_def])

/-! ## C9: FirstLickAny_ms versus FirstLick_ms -/

/-- **C9.** Whenever `FirstLick_ms` is defined, `FirstLickAny_ms` is
defined and no larger; and when no early lick was removed, the two
coincide. -/
theorem C9_first_lick_relations (p : RTParams) (row : RTRow) :
    (∀ fl, (add_reaction_time_columns p row).firstLick = some fl →
      ∃ fa, (add_reaction_time_columns p row).firstLickAny = some fa ∧
        fa ≤ fl) ∧
    ((add_reaction_time_columns p row).earlyLicksRemoved = false →
      ∀ fl, (add_reaction_time_columns p row).firstLick = some fl →
      (add_reaction_time_columns p row).firstLickAny = some fl) := by
  have hfl : (add_reaction_time_columns p row).firstLick =
      npMin (earlyLickFilter (firstStimMs p.maxTrialMs row.seTimes)
        p.earlyLickCutoffMs (validLicks p row.trStart row.lickTimes)).2 := rfl
  have hfa : (add_reaction_time_columns p row).firstLickAny =
      npMin (validLicks p row.trStart row.lickTimes) := rfl
  have her : (add_reaction_time_columns p row).earlyLicksRemoved =
      (earlyLickFilter (firstStimMs p.maxTrialMs row.seTimes)
        p.earlyLickCutoffMs (validLicks p row.trStart row.lickTimes)).1 := rfl
  constructor
  · intro fl h
    rw [hfl] at h
    have hrel : fl ∈ validLicks p row.trStart row.lickTimes :=
      earlyLickFilter_subset _ _ _ fl (npMin_mem h)
    obtain ⟨fa, hfa2⟩ := npMin_isSome_of_mem hrel
    refine ⟨fa, ?_, npMin_le hfa2 fl hrel⟩
    rw [hfa]
    exact hfa2
  · intro h0 fl h
    rw [her] at h0
    rw [hfl, earlyLickFilter_id_of_no_removal h0] at h
    rw [hfa, h]

/-- **C9, witness.** On Scenario 1 no early lick is removed and
`FirstLick_ms = 5`, so `FirstLickAny_ms = 5`. -/
theorem C9_witness :
    (add_reaction_time_columns scen1Params scen1Row).firstLickAny =
      some 5 :=
  (C9_first_lick_relations scen1Params scen1Row).2
    (by norm_num [add_reaction_time_columns, firstStimMs, validLicks,
      earlyLickFilter, npMin, scen1Params, scen1Row, List.filterMap_cons,
      List.filter_cons, min_def])
    5
    (by norm_num [add_reaction_time_columns, firstStimMs, validLicks,
      earlyLickFilter, npMin, scen1Params, scen1Row, List.filterMap_cons,
      List.filter_cons, min_def])

/-! ## C2: outcome decision order -/

theorem add_gng_outcomes_rwLo_eq (p : GngParams) (row : GngRow) :
    (add_gng_outcomes p row).rwLo =
      (rwBounds p.maxTrialMs row.trStart row.rwStart row.rwEnd).1 := rfl

theorem add_gng_outcomes_rwHi_eq (p : GngParams) (row : GngRow) :
    (add_gng_outcomes p row).rwHi =
      (rwBounds p.maxTrialMs row.trStart row.rwStart row.rwEnd).2 := rfl

/-- **C2.** Per trial, `Outcome_GNG_Code` is one of 1..6 or null, and the
label is decided in order: original code 5 wins first (AutoReward), then
original code 6 (PrematureLick); otherwise, only when both response-window
bounds are finite and the strength is exactly 0 or strictly positive (not
null), the stimulus-presence × lick-in-window split applies; in every
remaining case no label is assigned. -/
theorem C2_outcome_decision (p : GngParams) (row : GngRow) :
    ((add_gng_outcomes p row).code = none ∨
      (add_gng_outcomes p row).code = some 1 ∨
      (add_gng_outcomes p row).code = some 2 ∨
      (add_gng_outcomes p row).code = some 3 ∨
      (add_gng_outcomes p row).code = some 4 ∨
      (add_gng_outcomes p row).code = some 5 ∨
      (add_gng_outcomes p row).code = some 6) ∧
    (row.origOutcome = some 5 →
      (add_gng_outcomes p row).label = some GngLabel.AutoReward) ∧
    (row.origOutcome ≠ some 5 → row.origOutcome = some 6 →
      (add_gng_outcomes p row).label = some GngLabel.PrematureLick) ∧
    (row.origOutcome ≠ some 5 → row.origOutcome ≠ some 6 →
      (add_gng_outcomes p row).rwLo.isSome = true →
      (add_gng_outcomes p row).rwHi.isSome = true →
      (stimPresent row.seStrength = true ∨ stimAbsent row.seStrength = true) →
      (add_gng_outcomes p row).label =
        (if stimPresent row.seStrength then
          (if (add_gng_outcomes p row).lickInRW then some GngLabel.Hit
            else some GngLabel.Miss)
          else
          (if (add_gng_outcomes p row).lickInRW then some GngLabel.FalseAlarm
            else some GngLabel.CorrectRejection))) ∧
    (row.origOutcome ≠ some 5 → row.origOutcome ≠ some 6 →
      ¬((add_gng_outcomes p row).rwLo.isSome = true ∧
        (add_gng_outcomes p row).rwHi.isSome = true ∧
        (stimPresent row.seStrength = true ∨
          stimAbsent row.seStrength = true)) →
      (add_gng_outcomes p row).label = none) := by
  refine ⟨?_, ?_, ?_, ?_, ?_⟩
  · rw [add_gng_outcomes_code_eq]
    rcases h : (add_gng_outcomes p row).label with _ | l
    · simp
    · cases l <;> simp [code_map]
  · intro h5
    rw [add_gng_outcomes_label_eq]
    simp [gngOutcomeLabel, h5]
  · intro h5 h6
    rw [add_gng_outcomes_label_eq]
    simp [gngOutcomeLabel, h5, h6]
  · intro h5 h6 hlo hhi hcls
    rw [add_gng_outcomes_rwLo_eq] at hlo
    rw [add_gng_outcomes_rwHi_eq] at hhi
    rw [add_gng_outcomes_label_eq]
    rcases hcls with hcl | hcl <;>
      simp [gngOutcomeLabel, h5, h6, hlo, hhi, hcl]
  · intro h5 h6 hnot
    rw [add_gng_outcomes_rwLo_eq, add_gng_outcomes_rwHi_eq] at hnot
    rw [add_gng_outcomes_label_eq]
    cases hlo : (rwBounds p.maxTrialMs row.trStart row.rwStart
        row.rwEnd).1.isSome <;>
      cases hhi : (rwBounds p.maxTrialMs row.trStart row.rwStart
        row.rwEnd).2.isSome <;>
      cases hsp : stimPresent row.seStrength <;>
      cases hsa : stimAbsent row.seStrength <;>
      simp_all [gngOutcomeLabel, h5, h6]

/-- **C2, witness.** The theorem's AutoReward branch applied to a trial
with original outcome code 5. -/
theorem C2_witness :
    (add_gng_outcomes exGngParams exGngRowAuto).label =
      some GngLabel.AutoReward :=
  (C2_outcome_decision exGngParams exGngRowAuto).2.1 rfl

/-! ## C10: label/code consistency -/

/-- **C10.** `Outcome_GNG` and `Outcome_GNG_Code` are mutually
consistent: each numeric code 1..6 holds exactly when the corresponding
label does, and the code is null exactly when the label is null. -/
theorem C10_label_code_consistency (p : GngParams) (row : GngRow) :
    ((add_gng_outcomes p row).code = some 1 ↔
      (add_gng_outcomes p row).label = some GngLabel.Hit) ∧
    ((add_gng_outcomes p row).code = some 2 ↔
      (add_gng_outcomes p row).label = some GngLabel.Miss) ∧
    ((add_gng_outcomes p row).code = some 3 ↔
      (add_gng_outcomes p row).label = some GngLabel.FalseAlarm) ∧
    ((add_gng_outcomes p row).code = some 4 ↔
      (add_gng_outcomes p row).label = some GngLabel.CorrectRejection) ∧
    ((add_gng_outcomes p row).code = some 5 ↔
      (add_gng_outcomes p row).label = some GngLabel.AutoReward) ∧
    ((add_gng_outcomes p row).code = some 6 ↔
      (add_gng_outcomes p row).label = some GngLabel.PrematureLick) ∧
    ((add_gng_outcomes p row).code = none ↔
      (add_gng_outcomes p row).label = none) := by
  have hc := add_gng_outcomes_code_eq p row
  rcases h : (add_gng_outcomes p row).label with _ | l
  · rw [hc, h]
    simp
  · rw [hc, h]
    cases l <;> simp [code_map]

/-! ## C8: the outcome summary -/

theorem gngOutcomeLabel_isSome (o : Option Rat) (rwValid sp sa lk : Bool) :
    (gngOutcomeLabel o rwValid sp sa lk).isSome =
      ((decide (o = some 5) || decide (o = some 6)) ||
        (rwValid && (sp || sa))) := by
  unfold gngOutcomeLabel
  by_cases h5 : o = some 5
  · simp [h5]
  · by_cases h6 : o = some 6
    · simp [h5, h6]
    · cases rwValid <;> cases sp <;> cases sa <;> cases lk <;>
        simp [h5, h6]

theorem gng_label_isSome_iff (p : GngParams) (row : GngRow) :
    ((add_gng_outcomes p row).label).isSome = gngEvaluable p row := by
  rw [add_gng_outcomes_label_eq, gngOutcomeLabel_isSome]
  rfl

theorem gng_head_contrib (p : GngParams) (r : GngRow) :
    (gngOrder.map (fun l => if gngEvaluable p r &&
        decide ((add_gng_outcomes p r).label = some l) then 1 else 0)).sum =
      (if gngEvaluable p r then 1 else 0 : Nat) := by
  cases he : gngEvaluable p r
  · simp
  · have hs : ((add_gng_outcomes p r).label).isSome = true := by
      rw [gng_label_isSome_iff, he]
    obtain ⟨l, hl⟩ := Option.isSome_iff_exists.mp hs
    cases l <;> simp [gngOrder, hl]

theorem list_sum_map_add (L : List GngLabel) (f g : GngLabel → Nat) :
    (L.map (fun l => f l + g l)).sum = (L.map f).sum + (L.map g).sum := by
  induction L with
  | nil => rfl
  | cons a t ih =>
    simp only [List.map_cons, List.sum_cons, ih]
    omega

theorem gng_counts_sum (p : GngParams) (rows : List GngRow) :
    (gngOrder.map (fun l => gngSummaryCount p rows l)).sum =
      gngEvalCount p rows := by
  induction rows with
  | nil => rfl
  | cons r rs ih =>
    have hcount : ∀ l, gngSummaryCount p (r :: rs) l =
        gngSummaryCount p rs l +
          (if gngEvaluable p r &&
              decide ((add_gng_outcomes p r).label = some l) then 1
            else 0) := by
      intro l
      simp [gngSummaryCount, List.countP_cons]
    simp only [hcount]
    rw [list_sum_map_add, ih, gng_head_contrib]
    simp [gngEvalCount, List.countP_cons]

theorem list_sum_map_div (L : List GngLabel) (f : GngLabel → Nat) (d : Rat) :
    (L.map (fun l => (f l : Rat) / d)).sum = (((L.map f).sum : Nat) : Rat) / d := by
  induction L with
  | nil => simp
  | cons a t ih =>
    simp only [List.map_cons, List.sum_cons, ih]
    push_cast
    rw [add_div]

/-- **C8.** The summary of `add_gng_outcomes` is indexed by the six labels
in the fixed order; a non-evaluable trial carries no label while every
evaluable trial carries one (so only evaluable trials are counted, and a
label no evaluable trial carries gets count 0); the counts sum to the
number of evaluable trials; and when at least one trial is evaluable the
proportions sum to exactly 1. -/
theorem C8_summary (p : GngParams) (rows : List GngRow)
    (h : 0 < gngEvalCount p rows) :
    ((gngSummary p rows).map (fun x => x.1) = gngOrder) ∧
    (∀ row ∈ rows, gngEvaluable p row = false →
      (add_gng_outcomes p row).label = none) ∧
    (∀ row ∈ rows, gngEvaluable p row = true →
      ∃ l, (add_gng_outcomes p row).label = some l) ∧
    (∀ l, (∀ row ∈ rows, ¬(gngEvaluable p row = true ∧
        (add_gng_outcomes p row).label = some l)) →
      gngSummaryCount p rows l = 0) ∧
    ((gngSummary p rows).map (fun x => x.2.1)).sum = gngEvalCount p rows ∧
    ((gngSummary p rows).map (fun x => x.2.2)).sum = 1 := by
  refine ⟨?_, ?_, ?_, ?_, ?_, ?_⟩
  · simp [gngSummary, List.map_map, Function.comp_def]
  · intro row _ hev
    have hiff := gng_label_isSome_iff p row
    rw [hev] at hiff
    exact Option.not_isSome_iff_eq_none.mp (by simp [hiff])
  · intro row _ hev
    have hiff := gng_label_isSome_iff p row
    rw [hev] at hiff
    exact Option.isSome_iff_exists.mp hiff
  · intro l hl
    rw [gngSummaryCount, List.countP_eq_zero]
    intro r hr
    intro hcontra
    apply hl r hr
    constructor
    · exact (Bool.and_eq_true_iff.mp hcontra).1
    · exact of_decide_eq_true (Bool.and_eq_true_iff.mp hcontra).2
  · simp only [gngSummary, List.map_map, Function.comp_def]
    exact gng_counts_sum p rows
  · have hmax : max (gngEvalCount p rows) 1 = gngEvalCount p rows :=
      Nat.max_eq_left h
    simp only [gngSummary, List.map_map, Function.comp_def, gngSummaryProp]
    rw [list_sum_map_div, gng_counts_sum, hmax]
    rw [div_self]
    exact Nat.cast_ne_zero.mpr (Nat.pos_iff_ne_zero.mp h)

/-- **C8, witness.** The summary over one AutoReward trial: one evaluable
trial, proportions summing to 1. -/
theorem C8_witness :
    ((gngSummary exGngParams [exGngRowAuto]).map (fun x => x.2.2)).sum =
      1 :=
  (C8_summary exGngParams [exGngRowAuto] (by decide)).2.2.2.2.2

end Behav
